import Mathlib

/-!
Shallow embedding of the CryptoMeowCasino backend storage layer
(`MongoStorage`) and of the client `BackgroundMusicManager`.

Modelling conventions:
* Decimal amount strings ("1000.00", "0.00000000", ...) are modelled as
  rationals; `roundTo n` models JavaScript `Number.prototype.toFixed(n)`
  (idealised round-half-up, no binary-float artifacts).
* MongoDB document identifiers (`_id`) are modelled as their 24-character
  string form (field `oid`); `new mongoose.Types.ObjectId(str)` applied to a
  padded numeric string is modelled by `oidFromNum`.
* JavaScript `parseInt(s)` / `parseInt(s, 16)` are modelled by `parseIntDec` /
  `parseIntHex` (longest digit prefix; `none` models `NaN`).
* The `isConnected` guard and the possibility that an underlying store
  operation throws are modelled by the `connected` and `fail` flags of the
  storage state `St`.  A `try { ... } catch` that swallows the error is a
  branch on `fail` returning the default; a `catch` that rethrows returns
  `Except.error`.
-/

namespace CryptoMeow

/-- Decidable equality for `Except`, needed to evaluate the fallible
storage methods on concrete inputs. -/
def exceptDecEq {ε α : Type} [DecidableEq ε] [DecidableEq α] :
    (a b : Except ε α) → Decidable (a = b)
  | .ok a, .ok b =>
      if h : a = b then .isTrue (by rw [h])
      else .isFalse (fun hh => h (Except.ok.inj hh))
  | .error e, .error f =>
      if h : e = f then .isTrue (by rw [h])
      else .isFalse (fun hh => h (Except.error.inj hh))
  | .ok _, .error _ => .isFalse (fun h => Except.noConfusion h)
  | .error _, .ok _ => .isFalse (fun h => Except.noConfusion h)

instance {ε α : Type} [DecidableEq ε] [DecidableEq α] :
    DecidableEq (Except ε α) := exceptDecEq

/-- Round-half-up to `n` decimal places: models JavaScript `toFixed(n)`
read back as a number. -/
def roundTo (n : ℕ) (x : ℚ) : ℚ :=
  ((Rat.floor (x * 10 ^ n + 1 / 2) : ℤ) : ℚ) / 10 ^ n

/-- Models JavaScript `String.prototype.padStart(24, '0')`. -/
def padStart24 (s : String) : String :=
  String.mk (List.replicate (24 - s.toList.length) '0' ++ s.toList)

/-- `new mongoose.Types.ObjectId(n.toString().padStart(24, '0'))`:
the document-id string derived from a numeric id. -/
def oidFromNum (n : Nat) : String :=
  padStart24 (Nat.repr n)

/-- Models JavaScript `String.prototype.slice(-6)`: the last six characters
(the whole string when it is shorter). -/
def sliceLast6 (s : String) : String :=
  String.mk (s.toList.drop (s.toList.length - 6))

/-- Value of a hexadecimal digit, `none` on any other character. -/
def hexDigitVal (c : Char) : Option Nat :=
  if c.isDigit then some (c.toNat - '0'.toNat)
  else if 'a' ≤ c ∧ c ≤ 'f' then some (c.toNat - 'a'.toNat + 10)
  else if 'A' ≤ c ∧ c ≤ 'F' then some (c.toNat - 'A'.toNat + 10)
  else none

/-- Base-16 value of a list of hexadecimal digits. -/
def hexValue (l : List Char) : Nat :=
  l.foldl (fun acc c => 16 * acc + (hexDigitVal c).getD 0) 0

/-- Base-10 value of a list of decimal digits. -/
def decValue (l : List Char) : Nat :=
  l.foldl (fun acc c => 10 * acc + (c.toNat - '0'.toNat)) 0

/-- Models JavaScript `parseInt(s, 16)`: parse the longest prefix of
hexadecimal digits; `none` models `NaN`. -/
def parseIntHex (s : String) : Option Nat :=
  let ds := s.toList.takeWhile (fun c => (hexDigitVal c).isSome)
  if ds.isEmpty then none else some (hexValue ds)

/-- Models JavaScript `parseInt(s)` (base 10): parse the longest prefix of
decimal digits; `none` models `NaN`. -/
def parseIntDec (s : String) : Option Nat :=
  let ds := s.toList.takeWhile Char.isDigit
  if ds.isEmpty then none else some (decValue ds)

/-- A stored `User` document. -/
structure MUser where
  oid : String
  username : String
  password : String
  balance : ℚ
  meowBalance : ℚ
  isAdmin : Bool
  isBanned : Bool
  createdAt : Nat
  deriving DecidableEq

/-- A stored `Deposit` document. -/
structure MDeposit where
  oid : String
  userId : String
  amount : ℚ
  receiptUrl : Option String
  status : String
  createdAt : Nat
  deriving DecidableEq

/-- A stored `Withdrawal` document. -/
structure MWithdrawal where
  oid : String
  userId : String
  amount : ℚ
  platform : String
  accountInfo : String
  status : String
  createdAt : Nat
  deriving DecidableEq

/-- A stored `GameHistory` document. -/
structure MGame where
  oid : String
  userId : String
  gameType : String
  betAmount : ℚ
  winAmount : ℚ
  meowWon : ℚ
  result : Option String
  createdAt : Nat
  deriving DecidableEq

/-- The stored `Jackpot` document. -/
structure MJackpot where
  amount : ℚ
  lastWinnerId : Option String
  lastWonAt : Option Nat
  updatedAt : Nat
  deriving DecidableEq

/-- A stored `FarmCat` document. -/
structure MFarmCat where
  oid : String
  userId : String
  catId : String
  level : Nat
  production : ℚ
  lastClaimed : Nat
  createdAt : Nat
  deriving DecidableEq

/-- The state of the document store seen through `MongoStorage`.
`connected` models `this.isConnected`; `fail` models "the next underlying
store operation throws". -/
structure St where
  users : List MUser
  deposits : List MDeposit
  withdrawals : List MWithdrawal
  games : List MGame
  jackpot : Option MJackpot
  farmCats : List MFarmCat
  connected : Bool
  fail : Bool
  deriving DecidableEq

/-- The user record returned to callers (`convertMongoUser`).
`id` is `parseInt(_id.toString().slice(-6), 16)`; `none` models `NaN`. -/
structure ConvUser where
  id : Option Nat
  username : String
  password : String
  balance : ℚ
  meowBalance : ℚ
  isAdmin : Bool
  isBanned : Bool
  createdAt : Nat
  deriving DecidableEq

/-- The deposit record returned to callers (`convertMongoDeposit`). -/
structure ConvDeposit where
  id : Option Nat
  userId : Option Nat
  amount : ℚ
  status : String
  receiptUrl : Option String
  createdAt : Nat
  deriving DecidableEq

/-- The withdrawal record returned to callers (`convertMongoWithdrawal`). -/
structure ConvWithdrawal where
  id : Option Nat
  userId : Option Nat
  amount : ℚ
  platform : String
  accountInfo : String
  status : String
  createdAt : Nat
  deriving DecidableEq

/-- The game-history record returned to callers (`convertMongoGameHistory`). -/
structure ConvGame where
  id : Option Nat
  userId : Option Nat
  gameType : String
  betAmount : ℚ
  winAmount : ℚ
  meowWon : ℚ
  result : Option String
  createdAt : Nat
  deriving DecidableEq

/-- The farm-cat record returned to callers (the object literal built in
`getFarmData` / `getFarmCat`). -/
structure ConvFarmCat where
  id : Option Nat
  userId : Option Nat
  catId : String
  level : Nat
  production : ℚ
  lastClaimed : Nat
  createdAt : Nat
  deriving DecidableEq

/-- `convertMongoUser`. -/
def convertMongoUser (user : MUser) : ConvUser :=
  { id := parseIntHex (sliceLast6 user.oid)
    username := user.username
    password := user.password
    balance := user.balance
    meowBalance := user.meowBalance
    isAdmin := user.isAdmin
    isBanned := user.isBanned
    createdAt := user.createdAt }

/-- `convertMongoDeposit`.  `userId` is `parseInt(deposit.userId.toString())`,
a base-10 parse of the hexadecimal id string. -/
def convertMongoDeposit (deposit : MDeposit) : ConvDeposit :=
  { id := parseIntHex (sliceLast6 deposit.oid)
    userId := parseIntDec deposit.userId
    amount := deposit.amount
    status := deposit.status
    receiptUrl := deposit.receiptUrl
    createdAt := deposit.createdAt }

/-- `convertMongoWithdrawal`. -/
def convertMongoWithdrawal (withdrawal : MWithdrawal) : ConvWithdrawal :=
  { id := parseIntHex (sliceLast6 withdrawal.oid)
    userId := parseIntDec withdrawal.userId
    amount := withdrawal.amount
    platform := withdrawal.platform
    accountInfo := withdrawal.accountInfo
    status := withdrawal.status
    createdAt := withdrawal.createdAt }

/-- `convertMongoGameHistory`. -/
def convertMongoGameHistory (game : MGame) : ConvGame :=
  { id := parseIntHex (sliceLast6 game.oid)
    userId := parseIntDec game.userId
    gameType := game.gameType
    betAmount := game.betAmount
    winAmount := game.winAmount
    meowWon := game.meowWon
    result := game.result
    createdAt := game.createdAt }

/-- The farm-cat conversion written inline in `getFarmData` and
`getFarmCat`. -/
def convFarmCat (cat : MFarmCat) : ConvFarmCat :=
  { id := parseIntHex (sliceLast6 cat.oid)
    userId := parseIntDec cat.userId
    catId := cat.catId
    level := cat.level
    production := cat.production
    lastClaimed := cat.lastClaimed
    createdAt := cat.createdAt }

/-- Replace the first element satisfying `p` by its image under `f`
(the single-document semantics of `findOneAndUpdate`). -/
def updateFirst {α : Type} (p : α → Bool) (f : α → α) : List α → List α
  | [] => []
  | x :: xs => if p x then f x :: xs else x :: updateFirst p f xs

/-- Argument record of `createUser`.  The optional fields model extra
balance/flag fields a caller may pass; the source never reads them. -/
structure InsertUser where
  username : String
  password : String
  balance : Option ℚ := none
  meowBalance : Option ℚ := none
  isAdmin : Option Bool := none
  isBanned : Option Bool := none
  deriving DecidableEq

/-- Argument record of `createDeposit`. -/
structure InsertDeposit where
  userId : Nat
  amount : ℚ
  receiptUrl : Option String := none
  deriving DecidableEq

/-- Argument record of `createWithdrawal`. -/
structure InsertWithdrawal where
  userId : Nat
  amount : ℚ
  platform : String
  accountInfo : String
  deriving DecidableEq

/-- Argument record of `createGameHistory`.  `winAmount = none` models an
absent or empty (JS-falsy) `winAmount` string, replaced by `"0.00"` in the
stored record and by `"0"` in the jackpot test. -/
structure InsertGame where
  userId : Nat
  gameType : String
  betAmount : ℚ
  winAmount : Option ℚ := none
  meowWon : Option ℚ := none
  result : Option String := none
  deriving DecidableEq

/-- `MongoStorage.getUser`. -/
def getUser (s : St) (id : Nat) : Option ConvUser :=
  if !s.connected then none
  else if s.fail then none
  else (s.users.find? (fun u => u.oid == oidFromNum id)).map convertMongoUser

/-- `MongoStorage.getUserByUsername`. -/
def getUserByUsername (s : St) (username : String) : Option ConvUser :=
  if !s.connected then none
  else if s.fail then none
  else (s.users.find? (fun u => u.username == username)).map convertMongoUser

/-- `MongoStorage.createUser`.  `hash` models `bcrypt.hash(·, 10)`; `newOid`
is the id MongoDB assigns to the saved document, `now` is `new Date()`. -/
def createUser (hash : String → String) (s : St) (insertUser : InsertUser)
    (newOid : String) (now : Nat) : Except String (St × ConvUser) :=
  if !s.connected then .error "MongoDB not connected"
  else if s.fail then .error "store operation failed"
  else
    let hashedPassword := hash insertUser.password
    let user : MUser :=
      { oid := newOid
        username := insertUser.username
        password := hashedPassword
        balance := 1000          -- "1000.00"
        meowBalance := 0         -- "0.00000000"
        isAdmin := false
        isBanned := false
        createdAt := now }
    .ok ({ s with users := s.users ++ [user] }, convertMongoUser user)

/-- `MongoStorage.updateUserBalance`.  `userId = none` models a `NaN`
argument: `ObjectId("...NaN")` throws and the `catch` swallows it. -/
def updateUserBalance (s : St) (userId : Option Nat) (balance : ℚ)
    (meowBalance : Option ℚ) : St :=
  if !s.connected then s
  else if s.fail then s
  else
    match userId with
    | none => s
    | some n =>
        let users' := updateFirst (fun u => u.oid == oidFromNum n)
          (fun u => { u with balance := balance, meowBalance := meowBalance.getD u.meowBalance })
          s.users
        { s with users := users' }

/-- `MongoStorage.createDeposit`. -/
def createDeposit (s : St) (deposit : InsertDeposit) (newOid : String)
    (now : Nat) : Except String (St × ConvDeposit) :=
  if !s.connected then .error "MongoDB not connected"
  else if s.fail then .error "store operation failed"
  else
    let newDeposit : MDeposit :=
      { oid := newOid
        userId := oidFromNum deposit.userId
        amount := deposit.amount
        receiptUrl := deposit.receiptUrl
        status := "pending"
        createdAt := now }
    .ok ({ s with deposits := s.deposits ++ [newDeposit] },
         convertMongoDeposit newDeposit)

/-- `MongoStorage.getDeposits` (the `createdAt`-descending sort is not
modelled; no claim concerns ordering). -/
def getDeposits (s : St) : List ConvDeposit :=
  if !s.connected then []
  else if s.fail then []
  else s.deposits.map convertMongoDeposit

/-- `MongoStorage.updateDepositStatus`.  On `"approved"` the source credits
`updateUserBalance(parseInt(deposit.userId.toString()), ...)` — a base-10
parse of the hexadecimal owner id, re-padded to a document id. -/
def updateDepositStatus (s : St) (id : Nat) (status : String) : St :=
  if !s.connected then s
  else if s.fail then s
  else
    let found := s.deposits.find? (fun d => d.oid == oidFromNum id)
    let deposits' := updateFirst (fun d => d.oid == oidFromNum id)
      (fun d => { d with status := status }) s.deposits
    let s1 := { s with deposits := deposits' }
    match found with
    | none => s1
    | some d =>
        if status == "approved" then
          match s1.users.find? (fun u => u.oid == d.userId) with
          | none => s1
          | some u =>
              let newBalance := roundTo 2 (u.balance + d.amount)
              updateUserBalance s1 (parseIntDec d.userId) newBalance none
        else s1

/-- `MongoStorage.createWithdrawal`. -/
def createWithdrawal (s : St) (withdrawal : InsertWithdrawal) (newOid : String)
    (now : Nat) : Except String (St × ConvWithdrawal) :=
  if !s.connected then .error "MongoDB not connected"
  else if s.fail then .error "store operation failed"
  else
    let newWithdrawal : MWithdrawal :=
      { oid := newOid
        userId := oidFromNum withdrawal.userId
        amount := withdrawal.amount
        platform := withdrawal.platform
        accountInfo := withdrawal.accountInfo
        status := "pending"
        createdAt := now }
    .ok ({ s with withdrawals := s.withdrawals ++ [newWithdrawal] },
         convertMongoWithdrawal newWithdrawal)

/-- `MongoStorage.getWithdrawal`. -/
def getWithdrawal (s : St) (id : Nat) : Option ConvWithdrawal :=
  if !s.connected then none
  else if s.fail then none
  else (s.withdrawals.find? (fun w => w.oid == oidFromNum id)).map
    convertMongoWithdrawal

/-- `MongoStorage.getWithdrawals` (sort not modelled). -/
def getWithdrawals (s : St) : List ConvWithdrawal :=
  if !s.connected then []
  else if s.fail then []
  else s.withdrawals.map convertMongoWithdrawal

/-- `MongoStorage.getUserWithdrawals` (sort not modelled). -/
def getUserWithdrawals (s : St) (userId : Nat) : List ConvWithdrawal :=
  if !s.connected then []
  else if s.fail then []
  else (s.withdrawals.filter (fun w => w.userId == oidFromNum userId)).map
    convertMongoWithdrawal

/-- `MongoStorage.updateWithdrawalStatus`. -/
def updateWithdrawalStatus (s : St) (id : Nat) (status : String) : St :=
  if !s.connected then s
  else if s.fail then s
  else
    let withdrawals' := updateFirst (fun w => w.oid == oidFromNum id)
      (fun w => { w with status := status }) s.withdrawals
    { s with withdrawals := withdrawals' }

/-- `MongoStorage.createGameHistory`: saves the round and, when
`parseFloat(game.winAmount || "0") === 0`, increments the jackpot by
`betAmount * 0.01`, storing `(current + increase).toFixed(8)`. -/
def createGameHistory (s : St) (game : InsertGame) (newOid : String)
    (now : Nat) : Except String (St × ConvGame) :=
  if !s.connected then .error "MongoDB not connected"
  else if s.fail then .error "store operation failed"
  else
    let newGame : MGame :=
      { oid := newOid
        userId := oidFromNum game.userId
        gameType := game.gameType
        betAmount := game.betAmount
        winAmount := game.winAmount.getD 0   -- game.winAmount || "0.00"
        meowWon := game.meowWon.getD 0       -- game.meowWon || "0.00000000"
        result := game.result
        createdAt := now }
    let s1 := { s with games := s.games ++ [newGame] }
    let s2 :=
      if game.winAmount.getD 0 == 0 then     -- parseFloat(game.winAmount || "0") === 0
        match s1.jackpot with
        | none => s1
        | some j =>
            let currentJackpot := j.amount
            let betAmount := game.betAmount
            let jackpotIncrease := betAmount * (1 / 100)   -- betAmount * 0.01
            let j' := { j with amount := roundTo 8 (currentJackpot + jackpotIncrease), updatedAt := now }
            { s1 with jackpot := some j' }
      else s1
    .ok (s2, convertMongoGameHistory newGame)

/-- `MongoStorage.getGameHistory`.  The argument is optional; a `0` id is
JS-falsy and selects the unfiltered query, like an absent one. -/
def getGameHistory (s : St) (userId : Option Nat) : List ConvGame :=
  if !s.connected then []
  else if s.fail then []
  else
    let hist :=
      match userId with
      | some uid =>
          if uid == 0 then s.games
          else s.games.filter (fun g => g.userId == oidFromNum uid)
      | none => s.games
    hist.map convertMongoGameHistory

/-- The jackpot record returned to callers. -/
structure ConvJackpot where
  id : Nat
  amount : ℚ
  lastWinnerId : Option Nat
  lastWonAt : Option Nat
  updatedAt : Nat
  deriving DecidableEq

/-- The default jackpot object `getJackpot` returns when disconnected or on
failure (`amount: "0.10000000"`). -/
def defaultJackpot (now : Nat) : ConvJackpot :=
  { id := 1, amount := 1 / 10, lastWinnerId := none, lastWonAt := none
    updatedAt := now }

/-- `MongoStorage.getJackpot`: creates the document when absent, hence also
returns the possibly-updated state. -/
def getJackpot (s : St) (now : Nat) : St × ConvJackpot :=
  if !s.connected then (s, defaultJackpot now)
  else if s.fail then (s, defaultJackpot now)
  else
    match s.jackpot with
    | none =>
        let j : MJackpot :=
          { amount := 1 / 10, lastWinnerId := none, lastWonAt := none
            updatedAt := now }
        ({ s with jackpot := some j },
         { id := 1, amount := j.amount, lastWinnerId := none
           lastWonAt := j.lastWonAt, updatedAt := j.updatedAt })
    | some j =>
        (s,
         { id := 1, amount := j.amount
           lastWinnerId := j.lastWinnerId.bind parseIntDec
           lastWonAt := j.lastWonAt, updatedAt := j.updatedAt })

/-- `MongoStorage.updateJackpot` (upsert).  `if (winnerId)` is JS-truthy:
defined and non-zero. -/
def updateJackpot (s : St) (amount : ℚ) (winnerId : Option Nat) (now : Nat) :
    St :=
  if !s.connected then s
  else if s.fail then s
  else
    let setWinner :=
      match winnerId with
      | some w => w != 0
      | none => false
    let base := (s.jackpot).getD
      { amount := amount, lastWinnerId := none, lastWonAt := none
        updatedAt := now }
    let j1 := { base with amount := amount, updatedAt := now }
    let j2 :=
      if setWinner then
        { j1 with lastWinnerId := some (oidFromNum (winnerId.getD 0))
                  lastWonAt := some now }
      else j1
    { s with jackpot := some j2 }

/-- `MongoStorage.getAllUsers` (sort not modelled). -/
def getAllUsers (s : St) : List ConvUser :=
  if !s.connected then []
  else if s.fail then []
  else s.users.map convertMongoUser

/-- `MongoStorage.banUser`. -/
def banUser (s : St) (userId : Nat) (banned : Bool) : St :=
  if !s.connected then s
  else if s.fail then s
  else
    let users' := updateFirst (fun u => u.oid == oidFromNum userId)
      (fun u => { u with isBanned := banned }) s.users
    { s with users := users' }

/-- The farm summary `getFarmData` returns. -/
structure FarmData where
  cats : List ConvFarmCat
  totalProduction : ℚ
  unclaimedMeow : ℚ
  deriving DecidableEq

/-- The empty farm summary returned when disconnected or on failure. -/
def emptyFarmData : FarmData :=
  { cats := [], totalProduction := 0, unclaimedMeow := 0 }

/-- `MongoStorage.getFarmData`: filters the user's cats and folds their
`production` with `reduce((sum, cat) => sum + cat.production, 0)`. -/
def getFarmData (s : St) (userId : Nat) : FarmData :=
  if !s.connected then emptyFarmData
  else if s.fail then emptyFarmData
  else
    let cats := s.farmCats.filter (fun c => c.userId == oidFromNum userId)
    let totalProduction := cats.foldl (fun sum cat => sum + cat.production) 0
    { cats := cats.map convFarmCat
      totalProduction := totalProduction
      unclaimedMeow := 0 }

/-- `MongoStorage.createFarmCat`.  The returned literal echoes the numeric
`data.userId` directly. -/
def createFarmCat (s : St) (userId : Nat) (catId : String) (production : ℚ)
    (newOid : String) (now : Nat) : Option (St × ConvFarmCat) :=
  if !s.connected then none
  else if s.fail then none
  else
    let farmCat : MFarmCat :=
      { oid := newOid
        userId := oidFromNum userId
        catId := catId
        production := production
        level := 1
        lastClaimed := now
        createdAt := now }
    some ({ s with farmCats := s.farmCats ++ [farmCat] },
          { id := parseIntHex (sliceLast6 farmCat.oid)
            userId := some userId
            catId := farmCat.catId
            level := farmCat.level
            production := farmCat.production
            lastClaimed := farmCat.lastClaimed
            createdAt := farmCat.createdAt })

/-- `MongoStorage.getFarmCat`. -/
def getFarmCat (s : St) (id : Nat) : Option ConvFarmCat :=
  if !s.connected then none
  else if s.fail then none
  else (s.farmCats.find? (fun c => c.oid == oidFromNum id)).map convFarmCat

/-- `MongoStorage.upgradeFarmCat`. -/
def upgradeFarmCat (s : St) (id : Nat) (level : Nat) (production : ℚ) : St :=
  if !s.connected then s
  else if s.fail then s
  else
    let farmCats' := updateFirst (fun c => c.oid == oidFromNum id)
      (fun c => { c with level := level, production := production }) s.farmCats
    { s with farmCats := farmCats' }

/-- `MongoStorage.claimFarmRewards`: `updateMany` stamps `lastClaimed` on
every cat of the user. -/
def claimFarmRewards (s : St) (userId : Nat) (now : Nat) : St :=
  if !s.connected then s
  else if s.fail then s
  else
    { s with farmCats := s.farmCats.map (fun c =>
        if c.userId == oidFromNum userId then { c with lastClaimed := now }
        else c) }

/-! ## BackgroundMusicManager (client) -/

/-- The `HTMLAudioElement` state the manager manipulates. -/
structure AudioEl where
  src : String
  volume : ℚ
  paused : Bool
  deriving DecidableEq

/-- State of `BackgroundMusicManager`.  `audioEl` models the private
`audio` element (`none` before a successful initialisation). -/
structure BMM where
  audioEl : Option AudioEl
  enabled : Bool
  volume : ℚ
  ready : Bool                 -- isInitialized
  currentTrackIndex : Nat
  availableTracks : List String
  currentTrackName : String
  deriving DecidableEq

/-- The field initialisers of the class (`enabled = true`, `volume = 0.5`,
index 0, no element yet). -/
def initialManager : BMM :=
  { audioEl := none
    enabled := true
    volume := 1 / 2
    ready := false
    currentTrackIndex := 0
    availableTracks := []
    currentTrackName := "" }

/-- `loadCurrentTrack`: sets `audio.src` and `currentTrackName` from the
current index (no-op without an element or without tracks). -/
def loadCurrentTrack (m : BMM) : BMM :=
  match m.audioEl with
  | none => m
  | some a =>
      if m.availableTracks.isEmpty then m
      else
        let trackName := m.availableTracks.getD m.currentTrackIndex ""
        { m with audioEl := some { a with src := "/sounds/" ++ trackName }
                 currentTrackName := trackName }

/-- The index-advance-and-load step shared by `playNextTrack`. -/
def nextTrack (m : BMM) : BMM :=
  if m.availableTracks.isEmpty then m
  else
    loadCurrentTrack
      { m with currentTrackIndex :=
          (m.currentTrackIndex + 1) % m.availableTracks.length }

/-- `play`.  `ok` models whether `audio.play()` resolves; on rejection the
source retries the next track (the retry cascade is modelled one step — no
step of it touches `volume`). -/
def play (m : BMM) (ok : Bool) : BMM :=
  if m.audioEl.isNone then m
  else if !m.enabled then m
  else if ok then
    { m with audioEl := m.audioEl.map (fun a => { a with paused := false }) }
  else nextTrack m

/-- `playNextTrack`: advance and, when enabled, play. -/
def playNextTrack (m : BMM) (ok : Bool) : BMM :=
  if m.availableTracks.isEmpty then m
  else
    let m' := nextTrack m
    if m'.enabled then play m' ok else m'

/-- `pause`. -/
def pause (m : BMM) : BMM :=
  match m.audioEl with
  | none => m
  | some a =>
      if !a.paused then { m with audioEl := some { a with paused := true } }
      else m

/-- `setVolume`: clamps with `Math.min(1, Math.max(0, volume))` and mirrors
the stored volume onto the element. -/
def setVolume (m : BMM) (volume : ℚ) : BMM :=
  let v := min 1 (max 0 volume)
  { m with volume := v, audioEl := m.audioEl.map (fun a => { a with volume := v }) }

/-- `getVolume`. -/
def getVolume (m : BMM) : ℚ :=
  m.volume

/-- `setEnabled`: stores the flag, then plays or pauses. -/
def setEnabled (m : BMM) (enabled : Bool) (ok : Bool) : BMM :=
  let m' := { m with enabled := enabled }
  if enabled then play m' ok else pause m'

/-- `private async initializeAudio`, with the detected track list as input:
no-op when already initialised or when no tracks were found; otherwise
creates the element, loads the current track, and copies the stored volume
onto the element (`this.audio.volume = this.volume`). -/
def audioSetup (m : BMM) (tracks : List String) : BMM :=
  if m.ready then m
  else
    let m1 := { m with availableTracks := tracks }
    if tracks.isEmpty then m1
    else
      let m2 := { m1 with audioEl := some ({ src := "", volume := m1.volume, paused := true } : AudioEl) }
      let m3 := loadCurrentTrack m2
      let m4 := { m3 with audioEl := m3.audioEl.map (fun (a : AudioEl) => { a with volume := m3.volume }) }
      { m4 with ready := true }

/-! ## Shared predicates and concrete states -/

/-- The three-value status enum of the data model. -/
def validStatus (status : String) : Prop :=
  status = "pending" ∨ status = "approved" ∨ status = "rejected"

instance (status : String) : Decidable (validStatus status) := by
  unfold validStatus
  infer_instance

/-- Every deposit and withdrawal status lies in the enum. -/
def statusInv (s : St) : Prop :=
  (∀ d ∈ s.deposits, validStatus d.status) ∧
  (∀ w ∈ s.withdrawals, validStatus w.status)

instance (s : St) : Decidable (statusInv s) := by
  unfold statusInv
  infer_instance

/-- The last six characters of the document id are hexadecimal digits and
nonempty (true of every `ObjectId.toString()`). -/
def hexSlice (oid : String) : Prop :=
  (sliceLast6 oid).toList ≠ [] ∧
  ∀ c ∈ (sliceLast6 oid).toList, (hexDigitVal c).isSome = true

instance (oid : String) : Decidable (hexSlice oid) := by
  unfold hexSlice
  infer_instance

/-- A demo user whose document id happens to be all decimal digits, so the
numeric-id round trip works. -/
def demoUser : MUser :=
  { oid := "000000000000000000000042", username := "alice", password := "hp"
    balance := 100, meowBalance := 0, isAdmin := false, isBanned := false
    createdAt := 0 }

/-- A demo deposit owned by `demoUser`. -/
def demoDeposit : MDeposit :=
  { oid := oidFromNum 5, userId := "000000000000000000000042", amount := 50
    receiptUrl := none, status := "pending", createdAt := 0 }

/-- A demo withdrawal owned by `demoUser`. -/
def demoWithdrawal : MWithdrawal :=
  { oid := oidFromNum 9, userId := "000000000000000000000042", amount := 20
    platform := "gcash", accountInfo := "acct", status := "pending"
    createdAt := 0 }

/-- A demo jackpot document. -/
def demoJackpot : MJackpot :=
  { amount := 1 / 10, lastWinnerId := none, lastWonAt := none, updatedAt := 0 }

/-- A farm cat owned by user 1. -/
def demoCatA : MFarmCat :=
  { oid := "00000000000000000000cafe", userId := oidFromNum 1, catId := "tabby"
    level := 1, production := 5 / 2, lastClaimed := 0, createdAt := 0 }

/-- A farm cat owned by user 2. -/
def demoCatB : MFarmCat :=
  { oid := "00000000000000000000beef", userId := oidFromNum 2
    catId := "calico", level := 2, production := 7, lastClaimed := 0
    createdAt := 0 }

/-- A connected, healthy demo store. -/
def demoSt : St :=
  { users := [demoUser], deposits := [demoDeposit]
    withdrawals := [demoWithdrawal], games := [], jackpot := some demoJackpot
    farmCats := [demoCatA, demoCatB], connected := true, fail := false }

/-- The demo store with a failing underlying store operation. -/
def failSt : St :=
  { demoSt with fail := true }

/-- A demo losing game round (no `winAmount` field). -/
def demoGame : InsertGame :=
  { userId := 1, gameType := "dice", betAmount := 50 }

/-- A user whose document id starts with a decimal prefix followed by a hex
letter — the shape of a generic MongoDB ObjectId. -/
def cexUser : MUser :=
  { oid := "507f00000000000000000000", username := "carol", password := "hp"
    balance := 100, meowBalance := 0, isAdmin := false, isBanned := false
    createdAt := 0 }

/-- A deposit owned by `cexUser`. -/
def cexDeposit : MDeposit :=
  { oid := oidFromNum 1, userId := "507f00000000000000000000", amount := 50
    receiptUrl := none, status := "pending", createdAt := 0 }

/-- Store holding `cexUser` and `cexDeposit`. -/
def cexSt : St :=
  { users := [cexUser], deposits := [cexDeposit], withdrawals := []
    games := [], jackpot := none, farmCats := [], connected := true
    fail := false }

/-- The game-history document saved for `demoGame` (id "6469...01",
`new Date()` = 7). -/
def demoGameRec : MGame :=
  { oid := "646963650000000000000001", userId := oidFromNum 1
    gameType := "dice", betAmount := 50, winAmount := 0, meowWon := 0
    result := none, createdAt := 7 }

/-- The jackpot document after the losing `demoGame` round. -/
def demoJackpotAfter : MJackpot :=
  { demoJackpot with
      amount := roundTo 8 (demoJackpot.amount + demoGame.betAmount * (1 / 100)),
      updatedAt := 7 }

/-- The demo store after `createGameHistory demoSt demoGame`. -/
def demoStAfterGame : St :=
  { demoSt with games := [demoGameRec], jackpot := some demoJackpotAfter }

/-- A stand-in for `bcrypt.hash(·, 10)` in concrete witnesses. -/
def demoHash : String → String := fun p => String.append "hashed:" p

/-- A registration input that also smuggles balance and admin fields. -/
def demoInsert : InsertUser :=
  { username := "bob", password := "pw", balance := some 999999
    isAdmin := some true }

/-- The user document `createUser` saves for `demoInsert`. -/
def demoCreatedUser : MUser :=
  { oid := "00000000000000000000000a", username := "bob"
    password := demoHash "pw", balance := 1000, meowBalance := 0
    isAdmin := false, isBanned := false, createdAt := 3 }

/-- The demo store after `createUser demoHash demoSt demoInsert`. -/
def demoStAfterCreate : St :=
  { demoSt with users := [demoUser, demoCreatedUser] }

/-! ## Helper lemmas -/

/-- Evaluation rule for `roundTo`: if `k` is the floor of the scaled and
shifted value, the rounding is `k / 10 ^ n`. -/
theorem roundTo_eval (n : ℕ) (x : ℚ) (k : ℤ)
    (hle : (k : ℚ) ≤ x * 10 ^ n + 1 / 2)
    (hlt : x * 10 ^ n + 1 / 2 < (k : ℚ) + 1) :
    roundTo n x = (k : ℚ) / 10 ^ n := by
  have hfl : Rat.floor (x * 10 ^ n + 1 / 2) = k := by
    rw [Rat.floor_def', ← Rat.floor_def]
    exact Int.floor_eq_iff.mpr ⟨hle, hlt⟩
  unfold roundTo
  rw [hfl]

/-- Members of `updateFirst p f l` come from `l`, possibly through `f`. -/
theorem mem_updateFirst {α : Type} (p : α → Bool) (f : α → α) (l : List α)
    (x : α) (hx : x ∈ updateFirst p f l) :
    x ∈ l ∨ ∃ y, y ∈ l ∧ x = f y := by
  induction l with
  | nil => simp [updateFirst] at hx
  | cons a t ih =>
      by_cases hp : p a
      · simp [updateFirst, hp] at hx
        rcases hx with h | h
        · exact Or.inr ⟨a, List.mem_cons_self a t, h⟩
        · exact Or.inl (List.mem_cons_of_mem a h)
      · simp [updateFirst, hp] at hx
        rcases hx with h | h
        · exact Or.inl (h ▸ List.mem_cons_self a t)
        · rcases ih h with h' | ⟨y, hy, hxy⟩
          · exact Or.inl (List.mem_cons_of_mem a h')
          · exact Or.inr ⟨y, List.mem_cons_of_mem a hy, hxy⟩

/-- A conditional map over elements none of which satisfy `p` is the
identity. -/
theorem map_ite_id {α : Type} (p : α → Bool) (f : α → α) (l : List α)
    (h : ∀ x ∈ l, p x = false) :
    (l.map fun x => if p x then f x else x) = l := by
  induction l with
  | nil => rfl
  | cons a t ih =>
      have ha := h a (List.mem_cons_self a t)
      simp [ha, ih fun x hx => h x (List.mem_cons_of_mem a hx)]

/-- When at most one element satisfies `p` (pairwise exclusion),
`updateFirst` agrees with the conditional map. -/
theorem updateFirst_eq_map {α : Type} (p : α → Bool) (f : α → α) (l : List α)
    (h : l.Pairwise fun a b => p a = true → p b = false) :
    updateFirst p f l = l.map fun x => if p x then f x else x := by
  induction l with
  | nil => rfl
  | cons a t ih =>
      rcases List.pairwise_cons.mp h with ⟨ha, ht⟩
      by_cases hp : p a
      · simp [updateFirst, hp, map_ite_id p f t fun x hx => ha x hx hp]
      · simp [updateFirst, hp, ih ht]

/-- Folding `(· + production ·)` from `a` is `a` plus the sum of
productions. -/
theorem foldl_production_eq_sum (l : List MFarmCat) (a : ℚ) :
    l.foldl (fun sum cat => sum + cat.production) a
      = a + (l.map MFarmCat.production).sum := by
  induction l generalizing a with
  | nil => simp
  | cons c t ih => simp [List.foldl_cons, ih, add_assoc]

/-- `parseIntHex` on an all-hex nonempty string is the base-16 value of the
whole string. -/
theorem parseIntHex_all_hex (s : String)
    (hne : s.toList ≠ [])
    (hhex : ∀ c ∈ s.toList, (hexDigitVal c).isSome = true) :
    parseIntHex s = some (hexValue s.toList) := by
  unfold parseIntHex
  have htw : s.toList.takeWhile (fun c => (hexDigitVal c).isSome) = s.toList :=
    List.takeWhile_eq_self_iff.mpr hhex
  rw [htw]
  simp only [List.isEmpty_iff]
  rw [if_neg hne]

/-- `updateUserBalance` only ever touches the `users` collection. -/
theorem updateUserBalance_frame (s : St) (uid : Option Nat) (bal : ℚ)
    (mb : Option ℚ) :
    (updateUserBalance s uid bal mb).deposits = s.deposits ∧
    (updateUserBalance s uid bal mb).withdrawals = s.withdrawals ∧
    (updateUserBalance s uid bal mb).games = s.games ∧
    (updateUserBalance s uid bal mb).jackpot = s.jackpot ∧
    (updateUserBalance s uid bal mb).farmCats = s.farmCats ∧
    (updateUserBalance s uid bal mb).connected = s.connected ∧
    (updateUserBalance s uid bal mb).fail = s.fail := by
  unfold updateUserBalance
  rcases uid with _ | n <;> cases hc : s.connected <;> cases hf : s.fail <;>
    simp [hc, hf]

/-- Shape of `updateDepositStatus` on a healthy store: the deposit list is
the first-match status rewrite and the withdrawal list is untouched. -/
theorem updateDepositStatus_shape (s : St) (id : Nat) (st : String)
    (hc : s.connected = true) (hf : s.fail = false) :
    (updateDepositStatus s id st).deposits
      = updateFirst (fun d => d.oid == oidFromNum id)
          (fun d => { d with status := st }) s.deposits ∧
    (updateDepositStatus s id st).withdrawals = s.withdrawals := by
  unfold updateDepositStatus
  simp only [hc, hf, Bool.not_true, Bool.false_eq_true, if_false]
  cases hfind : s.deposits.find? (fun d => d.oid == oidFromNum id) with
  | none => simp [hfind]
  | some d =>
      simp only [hfind]
      by_cases hst : st = "approved"
      · subst hst
        simp only [beq_self_eq_true, if_true]
        cases hu : s.users.find? (fun u => u.oid == d.userId) with
        | none => simp [hu]
        | some u =>
            simp only [hu]
            exact ⟨(updateUserBalance_frame _ _ _ _).1,
              (updateUserBalance_frame _ _ _ _).2.1⟩
      · simp [hst]

/-! ## Claim theorems -/

/-- Claim C1: for every game-history record created via `createGameHistory`
whose `winAmount` parses to exactly 0, the jackpot amount after the call is
the amount before plus 1% of the game's `betAmount`, formatted to 8 decimal
places; for every record with non-zero `winAmount` the jackpot is
unchanged.  (When no jackpot document exists, none is created.) -/
theorem createGameHistory_jackpot (s : St) (game : InsertGame)
    (newOid : String) (now : Nat) (s' : St) (rec : ConvGame)
    (hok : createGameHistory s game newOid now = .ok (s', rec)) :
    (rec.winAmount = 0 →
      (∀ j : MJackpot, s.jackpot = some j →
        s'.jackpot = some { j with
          amount := roundTo 8 (j.amount + game.betAmount * (1 / 100))
          updatedAt := now }) ∧
      (s.jackpot = none → s'.jackpot = none)) ∧
    (rec.winAmount ≠ 0 → s'.jackpot = s.jackpot) := by
  unfold createGameHistory at hok
  cases hc : s.connected with
  | false => simp [hc] at hok
  | true =>
    cases hf : s.fail with
    | true => simp [hc, hf] at hok
    | false =>
      simp [hc, hf] at hok
      obtain ⟨hs', hrec⟩ := hok
      subst hs' hrec
      simp only [convertMongoGameHistory]
      by_cases hwin : game.winAmount.getD 0 = 0
      · refine ⟨fun _ => ⟨fun j hj => ?_, fun hj => ?_⟩, fun hne => ?_⟩
        · simp [hwin, hj]
        · simp [hwin, hj]
        · exact absurd hwin hne
      · refine ⟨fun h0 => absurd h0 hwin, fun _ => ?_⟩
        simp [hwin]

/-- Claim C1 witness: a losing 50-coin dice round on the demo store raises
the jackpot from 0.1 to 0.6. -/
theorem createGameHistory_jackpot_witness :
    demoStAfterGame.jackpot
      = some { demoJackpot with
          amount := roundTo 8 (demoJackpot.amount + demoGame.betAmount * (1 / 100)),
          updatedAt := 7 } ∧
    roundTo 8 (demoJackpot.amount + demoGame.betAmount * (1 / 100)) = 3 / 5 := by
  have hok : createGameHistory demoSt demoGame "646963650000000000000001" 7
      = .ok (demoStAfterGame, convertMongoGameHistory demoGameRec) := by
    simp [createGameHistory, demoSt, demoGame, demoStAfterGame, demoGameRec,
      demoJackpot, demoJackpotAfter, convertMongoGameHistory]
  refine ⟨((createGameHistory_jackpot demoSt demoGame "646963650000000000000001"
      7 demoStAfterGame (convertMongoGameHistory demoGameRec) hok).1 rfl).1
      demoJackpot rfl, ?_⟩
  exact (roundTo_eval 8 _ 60000000
      (by norm_num [demoJackpot, demoGame])
      (by norm_num [demoJackpot, demoGame])).trans (by norm_num)

/-- Claim C4: the user returned by `createUser` carries the bcrypt hash of
the supplied password (never the plaintext when the hash differs from it),
balance 1000.00, meowBalance 0.00000000, `isAdmin = false`,
`isBanned = false`, and the result ignores any balance or flag fields of
the input. -/
theorem createUser_defaults (hash : String → String) (s : St)
    (insertUser : InsertUser) (newOid : String) (now : Nat) (s' : St)
    (u : ConvUser)
    (hok : createUser hash s insertUser newOid now = .ok (s', u)) :
    u.password = hash insertUser.password ∧
    (hash insertUser.password ≠ insertUser.password →
      u.password ≠ insertUser.password) ∧
    u.balance = 1000 ∧ u.meowBalance = 0 ∧ u.isAdmin = false ∧
    u.isBanned = false ∧
    (∀ b m : Option ℚ, ∀ a bn : Option Bool,
      createUser hash s
          { insertUser with balance := b, meowBalance := m, isAdmin := a,
                            isBanned := bn } newOid now
        = createUser hash s insertUser newOid now) := by
  unfold createUser at hok
  cases hc : s.connected with
  | false => simp [hc] at hok
  | true =>
    cases hf : s.fail with
    | true => simp [hc, hf] at hok
    | false =>
      simp [hc, hf] at hok
      obtain ⟨hs', hu⟩ := hok
      subst hu
      exact ⟨rfl, fun h => h, rfl, rfl, rfl, rfl, fun b m a bn => rfl⟩

/-- Claim C4 witness: registering "bob" with password "pw" (and smuggled
balance/admin fields) yields the hashed password, the default balances and
cleared flags. -/
theorem createUser_defaults_witness :
    (convertMongoUser demoCreatedUser).password = demoHash "pw" ∧
    (convertMongoUser demoCreatedUser).password ≠ "pw" ∧
    (convertMongoUser demoCreatedUser).balance = 1000 ∧
    (convertMongoUser demoCreatedUser).meowBalance = 0 ∧
    (convertMongoUser demoCreatedUser).isAdmin = false ∧
    (convertMongoUser demoCreatedUser).isBanned = false := by
  have hok : createUser demoHash demoSt demoInsert "00000000000000000000000a" 3
      = .ok (demoStAfterCreate, convertMongoUser demoCreatedUser) := by
    simp [createUser, demoHash, demoSt, demoInsert, demoStAfterCreate,
      demoCreatedUser, demoUser, convertMongoUser]
  have h := createUser_defaults demoHash demoSt demoInsert
    "00000000000000000000000a" 3 demoStAfterCreate
    (convertMongoUser demoCreatedUser) hok
  exact ⟨h.1, h.2.1 (by decide), h.2.2.1, h.2.2.2.1, h.2.2.2.2.1,
    h.2.2.2.2.2.1⟩

/-- Claim C3 counterexample: with a failing underlying store operation the
create methods propagate the error to the caller instead of returning a
default, so not every data-access method swallows failures. -/
theorem create_methods_propagate_cex :
    createUser demoHash failSt demoInsert "00000000000000000000000a" 3
      = .error "store operation failed" ∧
    createDeposit failSt { userId := 1, amount := 50 }
        "000000000000000000000007" 4
      = .error "store operation failed" ∧
    createWithdrawal failSt
        { userId := 1, amount := 20, platform := "gcash", accountInfo := "x" }
        "000000000000000000000008" 5
      = .error "store operation failed" ∧
    createGameHistory failSt demoGame "646963650000000000000001" 7
      = .error "store operation failed" :=
  ⟨rfl, rfl, rfl, rfl⟩

/-- Claim C3 (amended): on a failing store operation every read and update
method catches the error and returns its empty/default value or no-ops,
while the four create methods (`createUser`, `createDeposit`,
`createWithdrawal`, `createGameHistory`) rethrow it. -/
theorem storage_error_handling (s : St) (hash : String → String)
    (iu : InsertUser) (idep : InsertDeposit) (iw : InsertWithdrawal)
    (ig : InsertGame) (newOid nm cid st : String) (now id uid lv : Nat)
    (uidOpt : Option Nat) (bal pr amt : ℚ) (mb : Option ℚ)
    (w : Option Nat) (b : Bool)
    (hf : s.fail = true) (hc : s.connected = true) :
    getUser s id = none ∧
    getUserByUsername s nm = none ∧
    updateUserBalance s uidOpt bal mb = s ∧
    getDeposits s = [] ∧
    updateDepositStatus s id st = s ∧
    getWithdrawal s id = none ∧
    getWithdrawals s = [] ∧
    getUserWithdrawals s uid = [] ∧
    updateWithdrawalStatus s id st = s ∧
    getGameHistory s uidOpt = [] ∧
    getJackpot s now = (s, defaultJackpot now) ∧
    updateJackpot s amt w now = s ∧
    getAllUsers s = [] ∧
    banUser s uid b = s ∧
    getFarmData s uid = emptyFarmData ∧
    createFarmCat s uid cid pr newOid now = none ∧
    getFarmCat s id = none ∧
    upgradeFarmCat s id lv pr = s ∧
    claimFarmRewards s uid now = s ∧
    createUser hash s iu newOid now = .error "store operation failed" ∧
    createDeposit s idep newOid now = .error "store operation failed" ∧
    createWithdrawal s iw newOid now = .error "store operation failed" ∧
    createGameHistory s ig newOid now = .error "store operation failed" := by
  simp [getUser, getUserByUsername, updateUserBalance, getDeposits,
    updateDepositStatus, getWithdrawal, getWithdrawals, getUserWithdrawals,
    updateWithdrawalStatus, getGameHistory, getJackpot, updateJackpot,
    getAllUsers, banUser, getFarmData, createFarmCat, getFarmCat,
    upgradeFarmCat, claimFarmRewards, createUser, createDeposit,
    createWithdrawal, createGameHistory, hf, hc]

/-- Claim C3 witness: the amended behaviour on the concrete failing demo
store. -/
theorem storage_error_handling_witness :
    getDeposits failSt = [] ∧ banUser failSt 42 true = failSt ∧
    createUser demoHash failSt demoInsert "00000000000000000000000a" 3
      = .error "store operation failed" := by
  obtain ⟨-, -, -, h4, -, -, -, -, -, -, -, -, -, h14, -, -, -, -, -, h20, -⟩ :=
    storage_error_handling failSt demoHash demoInsert
      { userId := 1, amount := 50 }
      { userId := 1, amount := 20, platform := "gcash", accountInfo := "x" }
      demoGame "00000000000000000000000a" "alice" "tabby" "approved" 3 5 42 2
      (some 1) 10 3 7 none none true rfl rfl
  exact ⟨h4, h14, h20⟩

/-- Claim C5 counterexample: the status-update methods accept any string
argument, so a single call can take a deposit or withdrawal status outside
the pending/approved/rejected enum. -/
theorem status_enum_cex :
    (updateDepositStatus demoSt 5 "garbage").deposits.map MDeposit.status
      = ["garbage"] ∧
    (updateWithdrawalStatus demoSt 9 "nonsense").withdrawals.map
        MWithdrawal.status
      = ["nonsense"] :=
  ⟨rfl, rfl⟩

/-- Claim C5 (amended): `createDeposit` and `createWithdrawal` establish
status "pending", and the status-update methods preserve the three-value
enum invariant whenever the status argument itself lies in the enum
(arbitrary strings are accepted and break it, see the counterexample). -/
theorem status_enum_invariant :
    (∀ s dep newOid now s' c, createDeposit s dep newOid now = .ok (s', c) →
      statusInv s → statusInv s' ∧ c.status = "pending") ∧
    (∀ s wd newOid now s' c, createWithdrawal s wd newOid now = .ok (s', c) →
      statusInv s → statusInv s' ∧ c.status = "pending") ∧
    (∀ s id st, validStatus st → statusInv s →
      statusInv (updateDepositStatus s id st)) ∧
    (∀ s id st, validStatus st → statusInv s →
      statusInv (updateWithdrawalStatus s id st)) := by
  refine ⟨?_, ?_, ?_, ?_⟩
  · intro s dep newOid now s' c hok hinv
    unfold createDeposit at hok
    cases hc : s.connected with
    | false => simp [hc] at hok
    | true =>
      cases hf : s.fail with
      | true => simp [hc, hf] at hok
      | false =>
        simp [hc, hf] at hok
        obtain ⟨hs', hcv⟩ := hok
        subst hs' hcv
        refine ⟨⟨?_, hinv.2⟩, rfl⟩
        intro d hd
        rcases List.mem_append.mp hd with h | h
        · exact hinv.1 d h
        · simp at h
          subst h
          exact Or.inl rfl
  · intro s wd newOid now s' c hok hinv
    unfold createWithdrawal at hok
    cases hc : s.connected with
    | false => simp [hc] at hok
    | true =>
      cases hf : s.fail with
      | true => simp [hc, hf] at hok
      | false =>
        simp [hc, hf] at hok
        obtain ⟨hs', hcv⟩ := hok
        subst hs' hcv
        refine ⟨⟨hinv.1, ?_⟩, rfl⟩
        intro w hw
        rcases List.mem_append.mp hw with h | h
        · exact hinv.2 w h
        · simp at h
          subst h
          exact Or.inl rfl
  · intro s id st hval hinv
    cases hc : s.connected with
    | false => simpa [updateDepositStatus, hc] using hinv
    | true =>
      cases hf : s.fail with
      | true => simpa [updateDepositStatus, hc, hf] using hinv
      | false =>
        obtain ⟨hdep, hwdr⟩ := updateDepositStatus_shape s id st hc hf
        refine ⟨?_, ?_⟩
        · intro d hd
          rw [hdep] at hd
          rcases mem_updateFirst _ _ _ _ hd with h | ⟨y, hy, hxy⟩
          · exact hinv.1 d h
          · subst hxy
            exact hval
        · intro w hw
          rw [hwdr] at hw
          exact hinv.2 w hw
  · intro s id st hval hinv
    cases hc : s.connected with
    | false => simpa [updateWithdrawalStatus, hc] using hinv
    | true =>
      cases hf : s.fail with
      | true => simpa [updateWithdrawalStatus, hc, hf] using hinv
      | false =>
        refine ⟨?_, ?_⟩
        · intro d hd
          simp only [updateWithdrawalStatus, hc, hf] at hd
          exact hinv.1 d (by simpa using hd)
        · intro w hw
          simp only [updateWithdrawalStatus, hc, hf] at hw
          simp at hw
          rcases mem_updateFirst _ _ _ _ hw with h | ⟨y, hy, hxy⟩
          · exact hinv.2 w h
          · subst hxy
            exact hval

/-- Claim C5 witness: the amended preservation applied to the demo store
with the in-enum status "approved". -/
theorem status_enum_invariant_witness :
    statusInv (updateDepositStatus demoSt 5 "approved") :=
  status_enum_invariant.2.2.1 demoSt 5 "approved" (Or.inr (Or.inl rfl))
    (by decide)

/-- Claim C2 counterexample: approving deposit 1, owned by the user with
document id "507f00000000000000000000", marks the deposit approved but
leaves the owner's balance at 100 instead of crediting the 50-coin amount:
the credit targets `parseInt("507f...") = 507` re-padded to a different
document id. -/
theorem deposit_approval_cex :
    (updateDepositStatus cexSt 1 "approved").deposits.map MDeposit.status
      = ["approved"] ∧
    (updateDepositStatus cexSt 1 "approved").users.map MUser.balance
      = [100] ∧
    cexSt.users.map MUser.balance = [100] ∧
    cexSt.deposits.map MDeposit.amount = [50] :=
  ⟨rfl, rfl, rfl, rfl⟩

/-- Claim C2 (amended): any status other than "approved" leaves every user
record unchanged (first part, no side conditions).  Approving a found
deposit with a found owner credits the user whose padded decimal id equals
the base-10 parse of the owner id's decimal-digit prefix (second part);
when that parse yields `NaN` the throw inside `updateUserBalance` is
swallowed and no balance changes (third part); and when the parse
round-trips to the owner id (e.g. the id is all decimal digits) the owning
user's balance becomes the old balance plus the amount, formatted to 2
decimal places (fourth part). -/
theorem updateDepositStatus_approved_credit :
    (∀ (s : St) (id : Nat) (st : String),
      s.connected = true → s.fail = false → st ≠ "approved" →
      (updateDepositStatus s id st).users = s.users) ∧
    (∀ (s : St) (id n : Nat) (d : MDeposit) (u : MUser),
      s.connected = true → s.fail = false →
      s.deposits.find? (fun x => x.oid == oidFromNum id) = some d →
      s.users.find? (fun x => x.oid == d.userId) = some u →
      parseIntDec d.userId = some n →
      (updateDepositStatus s id "approved").users
        = updateFirst (fun x => x.oid == oidFromNum n)
            (fun x => { x with balance := roundTo 2 (u.balance + d.amount) })
            s.users) ∧
    (∀ (s : St) (id : Nat) (d : MDeposit) (u : MUser),
      s.connected = true → s.fail = false →
      s.deposits.find? (fun x => x.oid == oidFromNum id) = some d →
      s.users.find? (fun x => x.oid == d.userId) = some u →
      parseIntDec d.userId = none →
      (updateDepositStatus s id "approved").users = s.users) ∧
    (∀ (s : St) (id n : Nat) (d : MDeposit) (u : MUser),
      s.connected = true → s.fail = false →
      s.deposits.find? (fun x => x.oid == oidFromNum id) = some d →
      s.users.find? (fun x => x.oid == d.userId) = some u →
      parseIntDec d.userId = some n → oidFromNum n = d.userId →
      (updateDepositStatus s id "approved").users
        = updateFirst (fun x => x.oid == d.userId)
            (fun x => { x with balance := roundTo 2 (u.balance + d.amount) })
            s.users) := by
  have hgen : ∀ (s : St) (id n : Nat) (d : MDeposit) (u : MUser),
      s.connected = true → s.fail = false →
      s.deposits.find? (fun x => x.oid == oidFromNum id) = some d →
      s.users.find? (fun x => x.oid == d.userId) = some u →
      parseIntDec d.userId = some n →
      (updateDepositStatus s id "approved").users
        = updateFirst (fun x => x.oid == oidFromNum n)
            (fun x => { x with balance := roundTo 2 (u.balance + d.amount) })
            s.users := by
    intro s id n d u hc hf hd hu hparse
    unfold updateDepositStatus
    simp only [hc, hf, Bool.not_true, Bool.false_eq_true, if_false, hd]
    simp only [beq_self_eq_true, if_true, hu]
    unfold updateUserBalance
    simp only [hc, hf, Bool.not_true, Bool.false_eq_true, if_false, hparse]
    rfl
  refine ⟨?_, hgen, ?_, ?_⟩
  · intro s id st hc hf hst
    unfold updateDepositStatus
    simp only [hc, hf, Bool.not_true, Bool.false_eq_true, if_false]
    cases hfind : s.deposits.find? (fun x => x.oid == oidFromNum id) with
    | none => rfl
    | some d' =>
        simp only [hfind]
        have hbeq : (st == "approved") = false := beq_eq_false_iff_ne.mpr hst
        simp [hbeq]
  · intro s id d u hc hf hd hu hparse
    unfold updateDepositStatus
    simp only [hc, hf, Bool.not_true, Bool.false_eq_true, if_false, hd]
    simp only [beq_self_eq_true, if_true, hu]
    unfold updateUserBalance
    simp only [hc, hf, Bool.not_true, Bool.false_eq_true, if_false, hparse]
  · intro s id n d u hc hf hd hu hparse hback
    rw [hgen s id n d u hc hf hd hu hparse, hback]

/-- Claim C2 witness: approving deposit 5 on the demo store (owner id all
decimal digits) rewrites the owner's balance to `roundTo 2 (100 + 50) =
150`; on `cexSt` (owner id "507f...") the general targeting applies with
`parseInt = 507`, the rewrite misses every user, and a "rejected" call also
changes nobody. -/
theorem updateDepositStatus_approved_credit_witness :
    (updateDepositStatus demoSt 5 "approved").users
      = updateFirst (fun x => x.oid == demoDeposit.userId)
          (fun x => { x with
            balance := roundTo 2 (demoUser.balance + demoDeposit.amount) })
          demoSt.users ∧
    roundTo 2 (demoUser.balance + demoDeposit.amount) = 150 ∧
    (updateDepositStatus cexSt 1 "approved").users = cexSt.users ∧
    (updateDepositStatus cexSt 1 "rejected").users = cexSt.users := by
  have h := updateDepositStatus_approved_credit
  refine ⟨h.2.2.2 demoSt 5 42 demoDeposit demoUser rfl rfl (by decide)
    (by decide) (by decide) (by decide), ?_, ?_, ?_⟩
  · exact (roundTo_eval 2 _ 15000
      (by norm_num [demoUser, demoDeposit])
      (by norm_num [demoUser, demoDeposit])).trans (by norm_num)
  · exact (h.2.1 cexSt 1 507 cexDeposit cexUser rfl rfl (by decide)
      (by decide) (by decide)).trans rfl
  · exact h.1 cexSt 1 "rejected" rfl rfl (by decide)

/-- Claim C6: `banUser` sets the targeted user's `isBanned` flag to the
argument and leaves every other field of that user and every other user's
record (and every other collection) unchanged.  The targeted user is the
one whose document id equals the padded decimal id; document ids are
assumed distinct, as Mongo `_id`s are. -/
theorem banUser_frame (s : St) (userId : Nat) (banned : Bool) (u : MUser)
    (hc : s.connected = true) (hf : s.fail = false)
    (hnodup : (s.users.map MUser.oid).Nodup)
    (hu : u ∈ s.users) (hid : u.oid = oidFromNum userId) :
    (banUser s userId banned).users
      = s.users.map (fun v => if v.oid == oidFromNum userId
          then { v with isBanned := banned } else v) ∧
    { u with isBanned := banned } ∈ (banUser s userId banned).users ∧
    (∀ v ∈ s.users, v.oid ≠ oidFromNum userId →
      v ∈ (banUser s userId banned).users) ∧
    (banUser s userId banned).users.length = s.users.length ∧
    (banUser s userId banned).deposits = s.deposits ∧
    (banUser s userId banned).withdrawals = s.withdrawals ∧
    (banUser s userId banned).games = s.games ∧
    (banUser s userId banned).jackpot = s.jackpot ∧
    (banUser s userId banned).farmCats = s.farmCats := by
  have hpw : s.users.Pairwise (fun a b =>
      (a.oid == oidFromNum userId) = true →
      (b.oid == oidFromNum userId) = false) := by
    have h1 : s.users.Pairwise (fun a b => a.oid ≠ b.oid) :=
      List.pairwise_map.mp hnodup
    refine h1.imp ?_
    intro a b hab hpa
    rw [beq_iff_eq] at hpa
    rw [beq_eq_false_iff_ne]
    intro hpb
    exact hab (hpa.trans hpb.symm)
  have husers : (banUser s userId banned).users
      = s.users.map (fun v => if v.oid == oidFromNum userId
          then { v with isBanned := banned } else v) := by
    unfold banUser
    simp only [hc, hf, Bool.not_true, Bool.false_eq_true, if_false]
    exact updateFirst_eq_map _ _ _ hpw
  refine ⟨husers, ?_, ?_, ?_, ?_, ?_, ?_, ?_, ?_⟩
  · rw [husers]
    have := List.mem_map_of_mem
      (fun v => if v.oid == oidFromNum userId
        then { v with isBanned := banned } else v) hu
    simpa [hid] using this
  · intro v hv hvne
    rw [husers]
    have := List.mem_map_of_mem
      (fun w => if w.oid == oidFromNum userId
        then { w with isBanned := banned } else w) hv
    have hbeq : (v.oid == oidFromNum userId) = false :=
      beq_eq_false_iff_ne.mpr hvne
    simpa [hbeq] using this
  · rw [husers, List.length_map]
  · unfold banUser
    simp [hc, hf]
  · unfold banUser
    simp [hc, hf]
  · unfold banUser
    simp [hc, hf]
  · unfold banUser
    simp [hc, hf]
  · unfold banUser
    simp [hc, hf]

/-- Claim C6 witness: banning user 42 on the demo store flips exactly
alice's flag and leaves the deposit collection alone. -/
theorem banUser_frame_witness :
    { demoUser with isBanned := true } ∈ (banUser demoSt 42 true).users ∧
    (banUser demoSt 42 true).users.length = demoSt.users.length ∧
    (banUser demoSt 42 true).deposits = demoSt.deposits := by
  have h := banUser_frame demoSt 42 true demoUser rfl rfl (by decide)
    (by decide) (by decide)
  exact ⟨h.2.1, h.2.2.2.1, h.2.2.2.2.1⟩

/-- Claim C7: `getFarmData` reports as `totalProduction` the sum of the
production values of exactly the farm cats whose owner field matches the
requested user, and 0 when that user owns none. -/
theorem getFarmData_totalProduction (s : St) (userId : Nat)
    (hc : s.connected = true) (hf : s.fail = false) :
    (getFarmData s userId).totalProduction
      = ((s.farmCats.filter (fun c => c.userId == oidFromNum userId)).map
          MFarmCat.production).sum ∧
    (s.farmCats.filter (fun c => c.userId == oidFromNum userId) = [] →
      (getFarmData s userId).totalProduction = 0) := by
  have h1 : (getFarmData s userId).totalProduction
      = ((s.farmCats.filter (fun c => c.userId == oidFromNum userId)).map
          MFarmCat.production).sum := by
    unfold getFarmData
    simp only [hc, hf, Bool.not_true, Bool.false_eq_true, if_false]
    rw [foldl_production_eq_sum, zero_add]
  refine ⟨h1, fun hempty => ?_⟩
  rw [h1, hempty]
  simp

/-- Claim C7 witness: on the demo store user 1 owns exactly `demoCatA`
(production 2.5), so `totalProduction = 2.5`. -/
theorem getFarmData_totalProduction_witness :
    (getFarmData demoSt 1).totalProduction
      = ((demoSt.farmCats.filter (fun c => c.userId == oidFromNum 1)).map
          MFarmCat.production).sum ∧
    (getFarmData demoSt 1).totalProduction = 5 / 2 := by
  have h := (getFarmData_totalProduction demoSt 1 rfl rfl).1
  refine ⟨h, h.trans ?_⟩
  have hA : (demoCatA.userId == oidFromNum 1) = true := rfl
  have hB : (demoCatB.userId == oidFromNum 1) = false := rfl
  show ((demoSt.farmCats.filter (fun c => c.userId == oidFromNum 1)).map
      MFarmCat.production).sum = 5 / 2
  simp [demoSt, List.filter_cons, hA, hB, demoCatA]

/-- Claim C8: for every converted record (user, deposit, withdrawal, game
history, farm cat) whose document id ends in six hexadecimal characters,
the numeric `id` field is the base-16 value of those last six
characters. -/
theorem conversion_numeric_id (u : MUser) (d : MDeposit) (w : MWithdrawal)
    (g : MGame) (c : MFarmCat)
    (hu : hexSlice u.oid) (hd : hexSlice d.oid) (hw : hexSlice w.oid)
    (hg : hexSlice g.oid) (hc : hexSlice c.oid) :
    (convertMongoUser u).id = some (hexValue (sliceLast6 u.oid).toList) ∧
    (convertMongoDeposit d).id = some (hexValue (sliceLast6 d.oid).toList) ∧
    (convertMongoWithdrawal w).id
      = some (hexValue (sliceLast6 w.oid).toList) ∧
    (convertMongoGameHistory g).id
      = some (hexValue (sliceLast6 g.oid).toList) ∧
    (convFarmCat c).id = some (hexValue (sliceLast6 c.oid).toList) :=
  ⟨parseIntHex_all_hex _ hu.1 hu.2, parseIntHex_all_hex _ hd.1 hd.2,
   parseIntHex_all_hex _ hw.1 hw.2, parseIntHex_all_hex _ hg.1 hg.2,
   parseIntHex_all_hex _ hc.1 hc.2⟩

/-- Claim C8 witness: the demo records' ids; in particular the cat with
document id ending "00cafe" gets numeric id 0xcafe = 51966. -/
theorem conversion_numeric_id_witness :
    (convertMongoUser demoUser).id
      = some (hexValue (sliceLast6 demoUser.oid).toList) ∧
    (convFarmCat demoCatA).id
      = some (hexValue (sliceLast6 demoCatA.oid).toList) ∧
    (convFarmCat demoCatA).id = some 51966 ∧
    (convertMongoUser demoUser).id = some 66 := by
  have h := conversion_numeric_id demoUser demoDeposit demoWithdrawal
    demoGameRec demoCatA (by decide) (by decide) (by decide) (by decide)
    (by decide)
  exact ⟨h.1, h.2.2.2.2, by decide, by decide⟩

/-- Claim C9: `claimFarmRewards` stamps `lastClaimed := now` on every farm
cat owned by the user, preserving all their other fields, and leaves every
farm cat of any other owner (and the collection size) unchanged. -/
theorem claimFarmRewards_frame (s : St) (userId now : Nat)
    (hc : s.connected = true) (hf : s.fail = false) :
    (claimFarmRewards s userId now).farmCats
      = s.farmCats.map (fun c => if c.userId == oidFromNum userId
          then { c with lastClaimed := now } else c) ∧
    (∀ c ∈ s.farmCats, c.userId = oidFromNum userId →
      { c with lastClaimed := now } ∈ (claimFarmRewards s userId now).farmCats
        ∧ ({ c with lastClaimed := now }).catId = c.catId
        ∧ ({ c with lastClaimed := now }).level = c.level
        ∧ ({ c with lastClaimed := now }).production = c.production
        ∧ ({ c with lastClaimed := now }).createdAt = c.createdAt) ∧
    (∀ c ∈ s.farmCats, c.userId ≠ oidFromNum userId →
      c ∈ (claimFarmRewards s userId now).farmCats) ∧
    (claimFarmRewards s userId now).farmCats.length = s.farmCats.length := by
  have hcats : (claimFarmRewards s userId now).farmCats
      = s.farmCats.map (fun c => if c.userId == oidFromNum userId
          then { c with lastClaimed := now } else c) := by
    unfold claimFarmRewards
    simp [hc, hf]
  refine ⟨hcats, ?_, ?_, ?_⟩
  · intro c hcmem hcid
    rw [hcats]
    have := List.mem_map_of_mem
      (fun x => if x.userId == oidFromNum userId
        then { x with lastClaimed := now } else x) hcmem
    exact ⟨by simpa [hcid] using this, rfl, rfl, rfl, rfl⟩
  · intro c hcmem hcne
    rw [hcats]
    have := List.mem_map_of_mem
      (fun x => if x.userId == oidFromNum userId
        then { x with lastClaimed := now } else x) hcmem
    have hbeq : (c.userId == oidFromNum userId) = false :=
      beq_eq_false_iff_ne.mpr hcne
    simpa [hbeq] using this
  · rw [hcats, List.length_map]

/-- Claim C9 witness: claiming for user 1 at time 99 restamps `demoCatA`,
keeps its other fields, and leaves user 2's `demoCatB` untouched. -/
theorem claimFarmRewards_frame_witness :
    { demoCatA with lastClaimed := 99 }
      ∈ (claimFarmRewards demoSt 1 99).farmCats ∧
    demoCatB ∈ (claimFarmRewards demoSt 1 99).farmCats ∧
    (claimFarmRewards demoSt 1 99).farmCats.length
      = demoSt.farmCats.length := by
  have h := claimFarmRewards_frame demoSt 1 99 rfl rfl
  exact ⟨(h.2.1 demoCatA (by simp [demoSt]) (by decide)).1,
    h.2.2.1 demoCatB (by simp [demoSt]) (by decide), h.2.2.2⟩

/-- Claim C10: the manager's stored volume is always in [0, 1]: it starts
at 0.5, `setVolume v` stores the clamp `min 1 (max 0 v)` (which `getVolume`
then returns), and no other operation changes the stored volume. -/
theorem setVolume_clamps (m : BMM) (v : ℚ) (ts : List String) (b ok : Bool) :
    getVolume (setVolume m v) = min 1 (max 0 v) ∧
    0 ≤ (setVolume m v).volume ∧ (setVolume m v).volume ≤ 1 ∧
    initialManager.volume = 1 / 2 ∧
    0 ≤ initialManager.volume ∧ initialManager.volume ≤ 1 ∧
    (play m ok).volume = m.volume ∧
    (pause m).volume = m.volume ∧
    (setEnabled m b ok).volume = m.volume ∧
    (playNextTrack m ok).volume = m.volume ∧
    (nextTrack m).volume = m.volume ∧
    (loadCurrentTrack m).volume = m.volume ∧
    (audioSetup m ts).volume = m.volume ∧
    getVolume m = m.volume := by
  have hload : ∀ x : BMM, (loadCurrentTrack x).volume = x.volume := by
    intro x
    unfold loadCurrentTrack
    cases hx : x.audioEl with
    | none => rfl
    | some a => by_cases he : x.availableTracks.isEmpty <;> simp [he]
  have hnext : ∀ x : BMM, (nextTrack x).volume = x.volume := by
    intro x
    unfold nextTrack
    by_cases he : x.availableTracks.isEmpty
    · simp [he]
    · simp only [he, Bool.false_eq_true, if_false]
      rw [hload]
  have hplay : ∀ (x : BMM) (k : Bool), (play x k).volume = x.volume := by
    intro x k
    unfold play
    by_cases ha : x.audioEl.isNone
    · simp [ha]
    · by_cases hen : x.enabled
      · cases k with
        | true => simp [ha, hen]
        | false => simp [ha, hen, hnext]
      · simp [ha, hen]
  have hpause : ∀ x : BMM, (pause x).volume = x.volume := by
    intro x
    unfold pause
    cases hx : x.audioEl with
    | none => rfl
    | some a => by_cases hp : a.paused <;> simp [hp]
  refine ⟨rfl, ?_, ?_, rfl, ?_, ?_, hplay m ok, hpause m, ?_, ?_, hnext m,
    hload m, ?_, rfl⟩
  · exact le_min (by norm_num) (le_max_left 0 v)
  · exact min_le_left 1 _
  · norm_num [initialManager]
  · norm_num [initialManager]
  · unfold setEnabled
    cases b with
    | true => simp [hplay]
    | false => simp [hpause]
  · unfold playNextTrack
    by_cases he : m.availableTracks.isEmpty
    · simp [he]
    · simp only [he, Bool.false_eq_true, if_false]
      by_cases hen : (nextTrack m).enabled
      · rw [if_pos hen, hplay, hnext]
      · rw [if_neg hen, hnext]
  · unfold audioSetup
    by_cases hr : m.ready
    · simp [hr]
    · by_cases he : ts.isEmpty
      · simp [hr, he]
      · simp only [hr, he, Bool.false_eq_true, if_false]
        rw [hload]

end CryptoMeow
